import Mathlib

/-!
Verification of the WormBait data layer (`WormCSV.py`, python2 and python3
variants) against its natural-language specification.

The embedding models Python values decoded from JSON as the inductive type
`Json` (Python `None` and JSON `null` coincide, both are `Json.null`), and a
raised Python exception as `Except.error` carrying a `PyErr`.  The network is
modelled by an environment `FetchEnv` mapping each request
(base URL, identifier, endpoint) to an outcome: the transport raising, the
body failing to decode as JSON, or a decoded JSON document.  Every remote
request actually issued is logged in a trace of `FetchCall`s so that claims
about the number and shape of remote lookups can be stated.

Definitions ending in `2` model `src/python2/WormCSV.py`; those ending in `3`
model `src/python3/WormCSV.py` where the two files differ.
-/

set_option autoImplicit false

namespace WormBait

/-- A Python value decoded from JSON (`requests.Response.json()` output).
Python `None` and JSON `null` are the same object, `Json.null`. -/
inductive Json where
  | null : Json
  | bool : Bool → Json
  | num : Int → Json
  | str : String → Json
  | arr : List Json → Json
  | obj : List (String × Json) → Json

/-- The Python exceptions the modelled code can raise. `transportError`
stands for the `requests` exceptions raised by `requests.get` itself. -/
inductive PyErr where
  | typeError
  | keyError
  | valueError
  | attributeError
  | stopIteration
  | indexError
  | transportError
deriving DecidableEq, Repr

/-- Outcome of one HTTP GET: the transport raises, the body is not JSON,
or a decoded JSON document is produced. -/
inductive FetchOutcome where
  | transport : FetchOutcome
  | decodeFail : FetchOutcome
  | ok : Json → FetchOutcome

/-- One remote request actually issued by `WormData.fetch`
(`requests.get(baseUrl + '/' + id + '/' + datum)`). -/
structure FetchCall where
  base : String
  id : String
  datum : String
deriving DecidableEq, Repr

/-- The network: what each request would produce. -/
def FetchEnv : Type := String → String → String → FetchOutcome

/-- Trace of the remote requests issued so far, in order. -/
abbrev Trace := List FetchCall

/-- Python dict lookup on an association list (first matching key). -/
def dget? {α : Type} : List (String × α) → String → Option α
  | [], _ => none
  | (k', v') :: rest, k => if k' == k then some v' else dget? rest k

/-- Python dict update `d[k] = v`: replace the binding of `k` when present,
append it otherwise. -/
def dset {α : Type} : List (String × α) → String → α → List (String × α)
  | [], k, v => [(k, v)]
  | (k', v') :: rest, k, v =>
      if k' == k then (k', v) :: rest else (k', v') :: dset rest k v

/-- Python truthiness of a JSON-decoded value (`if x:`). -/
def pyTruthy : Json → Bool
  | .null => false
  | .bool b => b
  | .num n => n != 0
  | .str s => s != ""
  | .arr xs => !xs.isEmpty
  | .obj kvs => !kvs.isEmpty

/-- Python truthiness of an optional string (`if self.dbId:`). -/
def pyTruthyOptStr : Option String → Bool
  | none => false
  | some s => s != ""

/-- An optional string as the Python value it denotes. -/
def optJson : Option String → Json
  | none => Json.null
  | some s => Json.str s

/-- Python `a.startswith(b)` on the characters of the strings. -/
def pyStartsWith (s p : String) : Bool :=
  p.toList.isPrefixOf s.toList

/-- Occurrence of `ks` as a contiguous sublist (Python substring test). -/
def isSubList (ks : List Char) : List Char → Bool
  | [] => ks.isEmpty
  | c :: rest => ks.isPrefixOf (c :: rest) || isSubList ks rest

/-- Python membership `k in j` for a string `k`: key test on a dict,
element test on a list, substring test on a string, `TypeError` otherwise. -/
def pyIn (k : String) : Json → Except PyErr Bool
  | .obj kvs => .ok (kvs.any fun p => p.1 == k)
  | .arr xs => .ok (xs.any fun x => match x with | .str s => s == k | _ => false)
  | .str s => .ok (isSubList k.toList s.toList)
  | _ => .error .typeError

/-- Python indexing `j[k]` with a string key: dict lookup (raising
`KeyError` when absent), `TypeError` on every non-dict value. -/
def pyIndexStr (j : Json) (k : String) : Except PyErr Json :=
  match j with
  | .obj kvs =>
      match dget? kvs k with
      | some v => .ok v
      | none => .error .keyError
  | _ => .error .typeError

/-- Python iteration `for x in j`: elements of a list, keys of a dict,
one-character strings of a string, `TypeError` otherwise. -/
def pyIter : Json → Except PyErr (List Json)
  | .arr xs => .ok xs
  | .obj kvs => .ok (kvs.map fun p => Json.str p.1)
  | .str s => .ok (s.toList.map fun c => Json.str (String.mk [c]))
  | _ => .error .typeError

/-- Python `len(j)`: length of a string, list, or dict, `TypeError`
otherwise. -/
def pyLen : Json → Except PyErr Nat
  | .str s => .ok s.length
  | .arr xs => .ok xs.length
  | .obj kvs => .ok kvs.length
  | _ => .error .typeError

/-- Extract the Python strings of a list of values, raising `TypeError` at
the first non-string element, as `', '.join` does. -/
def asStrings : List Json → Except PyErr (List String)
  | [] => .ok []
  | .str s :: rest => do
      let tail ← asStrings rest
      pure (s :: tail)
  | _ :: _ => .error .typeError

/-- The flattened value a multi-valued field receives: `None` when nothing
was collected, the entries joined with `', '` otherwise. -/
def joinedVal (strs : List String) : Json :=
  if strs.isEmpty then Json.null else Json.str (String.intercalate ", " strs)

/-- The gene API base URL (`WormData.GENE_BASE`). -/
def GENE_BASE : String := "http://api.wormbase.org/rest/field/gene"

/-- The protein API base URL (`WormData.PROTEIN_BASE`). -/
def PROTEIN_BASE : String := "http://api.wormbase.org/rest/field/protein"

/-- Body of `WormData.fetch` after `requests.get` has produced an outcome:
`r = requests.get(...)` raising is the `transport` case; `r.json()` failing
is caught and yields `None`; on a decoded document `j`, the code returns
`j[datum]['data']` when `datum in j and 'data' in j[datum]`, else `None`.
Identical in the python2 and python3 files. -/
def fetchRaw (datum : String) : FetchOutcome → Except PyErr Json
  | .transport => .error .transportError
  | .decodeFail => .ok .null
  | .ok j => do
      let b1 ← pyIn datum j
      if b1 then
        let jd ← pyIndexStr j datum
        let b2 ← pyIn "data" jd
        if b2 then pyIndexStr jd "data" else pure .null
      else pure .null

/-- `WormData.fetch` as invoked from `populate`: the URL concatenation
`baseUrl + '/' + id + '/' + datum` raises `TypeError` unless `id` is a
string; otherwise the request is issued (and logged in the trace) and
`fetchRaw` describes the rest. -/
def fetchCall (env : FetchEnv) (base : String) (idJ : Json) (datum : String)
    (t : Trace) : Except PyErr (Json × Trace) :=
  match idJ with
  | .str id =>
      match fetchRaw datum (env base id datum) with
      | .error e => .error e
      | .ok j => .ok (j, t ++ [⟨base, id, datum⟩])
  | _ => .error .typeError

/-- The value part of a `fetch` on a string identifier, without the trace. -/
def fetchRes (env : FetchEnv) (base id datum : String) : Except PyErr Json :=
  fetchRaw datum (env base id datum)

/-- One row of the CuffLink file, as the dict `dict(zip(headers, row))`. -/
abbrev Row := List (String × String)

/-- `CuffLinkDatabase.data`: first-column value mapped to the row dict. -/
abbrev CuffDB := List (String × Row)

/-- `dict(zip(headers, row))`: pair headers with cells, truncating at the
shorter list, later duplicate headers overriding earlier ones. -/
def rowDict (headers row : List String) : Row :=
  (headers.zip row).foldl (fun acc p => dset acc p.1 p.2) []

/-- `CuffLinkDatabase.__init__` on the parsed rows of the CSV source:
`reader.next()` raises `StopIteration` on an empty source; each data row is
stored under its first cell (`row[0]` raising `IndexError` on an empty
row). -/
def cuffLoad (headers : List String) :
    List (List String) → CuffDB → Except PyErr CuffDB
  | [], acc => .ok acc
  | row :: rest, acc =>
      match row with
      | [] => .error .indexError
      | c :: _ => cuffLoad headers rest (dset acc c (rowDict headers row))

/-- `CuffLinkDatabase.__init__` on the parsed rows of the CSV source:
`reader.next()` raises `StopIteration` on an empty source; each data row is
stored under its first cell (`row[0]` raising `IndexError` on an empty
row). -/
def cuffLinkInit : List (List String) → Except PyErr CuffDB
  | [] => .error .stopIteration
  | headers :: rows => cuffLoad headers rows []

/-- `CuffLinkDatabase.get`: the row dict when the key is known, `None`
(here `Option.none`) otherwise. -/
def cuffGet (db : CuffDB) (k : String) : Option Row :=
  dget? db k

/-- The record's field mapping `self.data`. -/
abbrev Data := List (String × Json)

/-- `WormData.joinIfExtant`: `self.data[datum]` (raising `KeyError` when
absent) is replaced by `None` when its `len` is `0`, else by
`', '.join(...)` of its iterated elements (raising `TypeError` when `len`
or a joined element is ill-typed). -/
def joinIfExtant (d : Data) (datum : String) : Except PyErr Data :=
  match dget? d datum with
  | none => .error .keyError
  | some v => do
      let n ← pyLen v
      if n == 0 then pure (dset d datum Json.null)
      else do
        let items ← pyIter v
        let strs ← asStrings items
        pure (dset d datum (Json.str (String.intercalate ", " strs)))

/-- The `log2(fold_change)` block of python2 `populate` (lines 183-184):
only when `self.dbId` is truthy, `self.database.get(self.dbId)` (a dict or
`None`) is indexed with `'log2(fold_change)'` — `TypeError` when the key
was absent from the store, `KeyError` when the row lacks the column. -/
def upDownStep (dbId : Option String) (db : CuffDB) (d : Data) :
    Except PyErr Data :=
  if pyTruthyOptStr dbId then
    match cuffGet db (dbId.getD "") with
    | none => .error .typeError
    | some row =>
        match dget? row "log2(fold_change)" with
        | none => .error .keyError
        | some v => .ok (dset d "up/down" (Json.str v))
  else .ok d

/-- python2 `populate` lines 189-190: the `sequence_name` response is
stored verbatim. -/
def sequenceStep (env : FetchEnv) (gid : Json) (d : Data) (t : Trace) :
    Except PyErr (Data × Trace) := do
  let (sequence, t1) ← fetchCall env GENE_BASE gid "sequence_name" t
  pure (dset d "sequence_name" sequence, t1)

/-- python2 `populate` lines 192-193: `description['text']` is stored, with
no guard on `description` being `None`. -/
def descriptionStep (env : FetchEnv) (gid : Json) (d : Data) (t : Trace) :
    Except PyErr (Data × Trace) := do
  let (description, t1) ← fetchCall env GENE_BASE gid "concise_description" t
  let v ← pyIndexStr description "text"
  pure (dset d "description" v, t1)

/-- Body of the `gene_models` loop: `if item and 'protein' in item and 'id'
in item['protein']`, collect `item['protein']['id']`. -/
def proteinIdOf (item : Json) : Except PyErr (Option Json) := do
  if pyTruthy item then
    let b ← pyIn "protein" item
    if b then
      let p ← pyIndexStr item "protein"
      let b2 ← pyIn "id" p
      if b2 then
        let v ← pyIndexStr p "id"
        pure (some v)
      else pure none
    else pure none
  else pure none

/-- The `gene_models` loop over `geneModels['table']`, appending each
extracted protein id in order. -/
def collectProteinIds (items : List Json) : Except PyErr (List Json) :=
  items.foldlM
    (fun acc item => do
      match (← proteinIdOf item) with
      | some v => pure (acc ++ [v])
      | none => pure acc)
    []

/-- python2 `populate` lines 199-205: fetch `gene_models`, set
`data['protein_id'] = []`, and fill it from `geneModels['table']` when
`geneModels and 'table' in geneModels`. -/
def geneModelsStep (env : FetchEnv) (gid : Json) (d : Data) (t : Trace) :
    Except PyErr (Data × Trace) := do
  let (geneModels, t1) ← fetchCall env GENE_BASE gid "gene_models" t
  let d1 := dset d "protein_id" (Json.arr [])
  if pyTruthy geneModels then
    let b ← pyIn "table" geneModels
    if b then
      let tbl ← pyIndexStr geneModels "table"
      let items ← pyIter tbl
      let ids ← collectProteinIds items
      pure (dset d1 "protein_id" (Json.arr ids), t1)
    else pure (d1, t1)
  else pure (d1, t1)

/-- python2 `populate` lines 208-210: `gene_class` is set to
`geneClass['tag']['label']` only when `geneClass and 'tag' in geneClass and
'label' in geneClass['tag']`; otherwise the key is not set at all. -/
def geneClassStep (env : FetchEnv) (gid : Json) (d : Data) (t : Trace) :
    Except PyErr (Data × Trace) := do
  let (geneClass, t1) ← fetchCall env GENE_BASE gid "gene_class" t
  if pyTruthy geneClass then
    let b ← pyIn "tag" geneClass
    if b then
      let tg ← pyIndexStr geneClass "tag"
      let b2 ← pyIn "label" tg
      if b2 then
        let v ← pyIndexStr tg "label"
        pure (dset d "gene_class" v, t1)
      else pure (d, t1)
    else pure (d, t1)
  else pure (d, t1)

/-- The ortholog label loop: when the response is truthy, extract
`item['ortholog']['label']` from each iterated item (unguarded, so a wrong
shape raises); an untruthy response collects nothing. -/
def collectOrthologLabels (resp : Json) : Except PyErr (List Json) :=
  if pyTruthy resp then do
    let items ← pyIter resp
    items.mapM fun item => do
      let o ← pyIndexStr item "ortholog"
      pyIndexStr o "label"
  else pure []

/-- One ortholog block of python2 `populate` (lines 212-220, 222-228,
230-236): fetch the endpoint, set the field to `[]`, append the labels,
then `joinIfExtant`.  The python3 file inlines the same join. -/
def orthologStep (env : FetchEnv) (gid : Json) (datum : String) (d : Data)
    (t : Trace) : Except PyErr (Data × Trace) := do
  let (resp, t1) ← fetchCall env GENE_BASE gid datum t
  let d1 := dset d datum (Json.arr [])
  let labels ← collectOrthologLabels resp
  let d2 := dset d1 datum (Json.arr labels)
  let d3 ← joinIfExtant d2 datum
  pure (d3, t1)

/-- The `best_human_match` loop shared by both variants: one protein fetch
per iterated element, appending `bestHumanMatch['description']` whenever
`bestHumanMatch and 'description' in bestHumanMatch`. -/
def bestHumanLoop (env : FetchEnv) : List Json → List Json → Trace →
    Except PyErr (List Json × Trace)
  | [], acc, t => .ok (acc, t)
  | pj :: rest, acc, t => do
      let (bhm, t1) ← fetchCall env PROTEIN_BASE pj "best_human_match" t
      if pyTruthy bhm then
        let b ← pyIn "description" bhm
        if b then
          let v ← pyIndexStr bhm "description"
          bestHumanLoop env rest (acc ++ [v]) t1
        else bestHumanLoop env rest acc t1
      else bestHumanLoop env rest acc t1

/-- python2 `populate` lines 238-266: set `best_human_ortholog = []`;
`isSingular = isinstance(self.data['protein_id'], str)`; when the
protein-id value is truthy and not a string, loop over it; when truthy and
a string, issue a single fetch with the whole value. -/
def bestHumanStep (env : FetchEnv) (d : Data) (t : Trace) :
    Except PyErr (Data × Trace) := do
  let d0 := dset d "best_human_ortholog" (Json.arr [])
  match dget? d0 "protein_id" with
  | none => .error .keyError
  | some pid =>
      let isSingular : Bool := match pid with | .str _ => true | _ => false
      if pyTruthy pid && !isSingular then do
        let items ← pyIter pid
        let (acc, t1) ← bestHumanLoop env items [] t
        pure (dset d0 "best_human_ortholog" (Json.arr acc), t1)
      else if pyTruthy pid then do
        let (bhm, t1) ← fetchCall env PROTEIN_BASE pid "best_human_match" t
        if pyTruthy bhm then
          let b ← pyIn "description" bhm
          if b then
            let v ← pyIndexStr bhm "description"
            pure (dset d0 "best_human_ortholog" (Json.arr [v]), t1)
          else pure (d0, t1)
        else pure (d0, t1)
      else pure (d0, t)

/-- `WormData.populate` of `src/python2/WormCSV.py` (with the
`data['gene_id'] = geneID` assignment of `__init__`, which precedes it).
The whole body runs only when `self.geneID and
self.geneID.startswith("WBGene")`. Returns the final `self.data` and the
trace of remote requests issued. -/
def populate2 (env : FetchEnv) (dbId gid? : Option String) (db : CuffDB) :
    Except PyErr (Data × Trace) :=
  let d0 : Data := [("gene_id", optJson gid?)]
  if pyTruthyOptStr gid? && pyStartsWith (gid?.getD "") "WBGene" then do
    let gid := Json.str (gid?.getD "")
    let d1 ← upDownStep dbId db d0
    let (d2, t2) ← sequenceStep env gid d1 []
    let (d3, t3) ← descriptionStep env gid d2 t2
    let (d4, t4) ← geneModelsStep env gid d3 t3
    let (d5, t5) ← geneClassStep env gid d4 t4
    let (d6, t6) ← orthologStep env gid "human_orthologs" d5 t5
    let (d7, t7) ← orthologStep env gid "nematode_orthologs" d6 t6
    let (d8, t8) ← orthologStep env gid "other_orthologs" d7 t7
    let (d9, t9) ← bestHumanStep env d8 t8
    let d10 ← joinIfExtant d9 "protein_id"
    let d11 ← joinIfExtant d10 "best_human_ortholog"
    pure (d11, t9)
  else pure (d0, [])

/-- A constructed python2 `WormData` object: its constructor arguments and
the populated field mapping. -/
structure WormData2 where
  dbId : Option String
  geneID : Option String
  data : Data

/-- python2 `WormData.__init__`: store the ids, seed `data` with
`gene_id`, and run `populate`. -/
def wormDataNew2 (env : FetchEnv) (dbId gid? : Option String) (db : CuffDB) :
    Except PyErr (WormData2 × Trace) :=
  match populate2 env dbId gid? db with
  | .error e => .error e
  | .ok (d, t) => .ok (⟨dbId, gid?, d⟩, t)

/-- The python3 `log2(fold_change)` line (line 55): unconditional, with no
prefix guard and no truthiness check on the identifier; an identifier that
is `None` or unknown makes `self.database.get(...)` return `None`, and
indexing it raises `TypeError`. -/
def upDownStep3 (xlocId : Option String) (db : CuffDB) (d : Data) :
    Except PyErr Data :=
  match (match xlocId with | none => none | some x => cuffGet db x) with
  | none => .error .typeError
  | some row =>
      match dget? row "log2(fold_change)" with
      | none => .error .keyError
      | some v => .ok (dset d "up/down" (Json.str v))

/-- python3 lines 63-72: `for item in geneModels['table']` with no
truthiness or membership guard on `geneModels`, then the inline join of
`protein_id` (python3 joins this field immediately). -/
def geneModelsStep3 (env : FetchEnv) (gid : Json) (d : Data) (t : Trace) :
    Except PyErr (Data × Trace) := do
  let (geneModels, t1) ← fetchCall env GENE_BASE gid "gene_models" t
  let d1 := dset d "protein_id" (Json.arr [])
  let tbl ← pyIndexStr geneModels "table"
  let items ← pyIter tbl
  let ids ← collectProteinIds items
  let d2 := dset d1 "protein_id" (Json.arr ids)
  let d3 ← joinIfExtant d2 "protein_id"
  pure (d3, t1)

/-- python3 lines 75-76: the `gene_class` response is stored verbatim, with
no `tag`/`label` extraction. -/
def geneClassStep3 (env : FetchEnv) (gid : Json) (d : Data) (t : Trace) :
    Except PyErr (Data × Trace) := do
  let (geneClass, t1) ← fetchCall env GENE_BASE gid "gene_class" t
  pure (dset d "gene_class" geneClass, t1)

/-- python3 lines 111-128: `isSingular = hasattr(pid, '__len__') and not
isinstance(pid, str)` — true exactly for lists and dicts, so false for the
joined string (iterated character by character) and for `None` (iterating
it raises `TypeError`); then the inline join of `best_human_ortholog`. -/
def bestHumanStep3 (env : FetchEnv) (d : Data) (t : Trace) :
    Except PyErr (Data × Trace) := do
  let d0 := dset d "best_human_ortholog" (Json.arr [])
  match dget? d0 "protein_id" with
  | none => .error .keyError
  | some pid =>
      let isSingular : Bool :=
        match pid with | .arr _ => true | .obj _ => true | _ => false
      let (d1, t1) ←
        if !isSingular then do
          let items ← pyIter pid
          let (acc, t1) ← bestHumanLoop env items [] t
          pure (dset d0 "best_human_ortholog" (Json.arr acc), t1)
        else do
          let (bhm, t1) ← fetchCall env PROTEIN_BASE pid "best_human_match" t
          if pyTruthy bhm then
            let b ← pyIn "description" bhm
            if b then
              let v ← pyIndexStr bhm "description"
              pure (dset d0 "best_human_ortholog" (Json.arr [v]), t1)
            else pure (d0, t1)
          else pure (d0, t1)
      let d2 ← joinIfExtant d1 "best_human_ortholog"
      pure (d2, t1)

/-- `WormData.populate` of `src/python3/WormCSV.py` (with `__init__`'s
`data['gene_id'] = geneID`): no `WBGene` prefix guard, unconditional local
lookup, verbatim `gene_class`, and the early join of `protein_id`. -/
def populate3 (env : FetchEnv) (xlocId gid? : Option String) (db : CuffDB) :
    Except PyErr (Data × Trace) := do
  let d0 : Data := [("gene_id", optJson gid?)]
  let gid := optJson gid?
  let d1 ← upDownStep3 xlocId db d0
  let (d2, t2) ← sequenceStep env gid d1 []
  let (d3, t3) ← descriptionStep env gid d2 t2
  let (d4, t4) ← geneModelsStep3 env gid d3 t3
  let (d5, t5) ← geneClassStep3 env gid d4 t4
  let (d6, t6) ← orthologStep env gid "human_orthologs" d5 t5
  let (d7, t7) ← orthologStep env gid "nematode_orthologs" d6 t6
  let (d8, t8) ← orthologStep env gid "other_orthologs" d7 t7
  let (d9, t9) ← bestHumanStep3 env d8 t8
  pure (d9, t9)

/-- Python `list.remove(x)`: delete the first occurrence, raising
`ValueError` when `x` is absent. -/
def pyRemove (l : List String) (x : String) : Except PyErr (List String) :=
  if l.contains x then .ok (l.erase x) else .error .valueError

/-- The `exclusivelyWBIds` loop of python2 `OutputCSV.write` (lines 77-80):
starts `True`; a record whose truthy `describe()` dict contains a `db_id`
entry whose `.startswith('XLOC')` holds flips it to `False`; the
`exclusivelyWBIds and` short circuit skips every later record once it is
`False`.  `.startswith` on a non-string raises `AttributeError`. -/
def exclusiveLoop : List WormData2 → Bool → Except PyErr Bool
  | [], ex => .ok ex
  | w :: rest, ex =>
      if ex then
        if !w.data.isEmpty then do
          let b ← pyIn "db_id" (Json.obj w.data)
          if b then
            match dget? w.data "db_id" with
            | some (Json.str s) =>
                if pyStartsWith s "XLOC" then exclusiveLoop rest false
                else exclusiveLoop rest ex
            | some _ => .error .attributeError
            | none => .error .keyError
          else exclusiveLoop rest ex
        else exclusiveLoop rest ex
      else exclusiveLoop rest ex

/-- The `exclusivelyWBIds` value after the whole loop. -/
def computeExclusive (records : List WormData2) : Except PyErr Bool :=
  exclusiveLoop records true

/-- `csv.DictWriter.writerow` key discipline: a row dict containing a key
outside `fieldnames` raises `ValueError` (the default `extrasaction`). -/
def writeRowCheck (fieldnames : List String) (w : WormData2) :
    Except PyErr Unit :=
  if w.data.all fun p => fieldnames.contains p.1 then .ok ()
  else .error .valueError

/-- The `for wormData in listOfWormDatas: writer.writerow(...)` loop. -/
def writeRowsLoop (fieldnames : List String) :
    List WormData2 → Except PyErr Unit
  | [] => .ok ()
  | w :: rest => do
      let _ ← writeRowCheck fieldnames w
      writeRowsLoop fieldnames rest

/-- python2 `OutputCSV.write`: when `exclusivelyWBIds` holds,
`self.headers.remove('db_id')` and `self.headers.remove('up/down')` mutate
the header list (the very list the caller passed to the constructor);
then one row is written per record.  The returned list is the header
list's value after the call — the caller's list object now holds it. -/
def outputWrite (headers : List String) (records : List WormData2) :
    Except PyErr (List String) := do
  let ex ← computeExclusive records
  let hs ←
    if ex then do
      let h1 ← pyRemove headers "db_id"
      pyRemove h1 "up/down"
    else pure headers
  let _ ← writeRowsLoop hs records
  pure hs

/-- python3 `OutputCSV.write` (lines 32-37): no `exclusivelyWBIds` logic
at all — the headers are used, and left, exactly as supplied. -/
def outputWrite3 (headers : List String) (records : List WormData2) :
    Except PyErr (List String) := do
  let _ ← writeRowsLoop headers records
  pure headers

/-- The protein-id list the `gene_models` block of python2 `populate`
collects for a given environment, recomputed as a standalone pipeline so
that theorems can tie the stored fields to the responses. -/
def proteinIdsOf (env : FetchEnv) (gid : String) : Except PyErr (List Json) := do
  let geneModels ← fetchRes env GENE_BASE gid "gene_models"
  if pyTruthy geneModels then
    let b ← pyIn "table" geneModels
    if b then
      let tbl ← pyIndexStr geneModels "table"
      let items ← pyIter tbl
      collectProteinIds items
    else pure []
  else pure []

/-- The final value of the `protein_id` field: the collected ids joined
with `', '`, or `None` when none were collected. -/
def proteinValueOf (env : FetchEnv) (gid : String) : Except PyErr Json := do
  let ids ← proteinIdsOf env gid
  let strs ← asStrings ids
  pure (joinedVal strs)

/-- The final value of an ortholog field for a given environment: the
labels of the response's entries, in response order, joined with `', '`,
or `None` when the response was untruthy or empty. -/
def orthologValueOf (env : FetchEnv) (gid datum : String) :
    Except PyErr Json := do
  let resp ← fetchRes env GENE_BASE gid datum
  let labels ← collectOrthologLabels resp
  let strs ← asStrings labels
  pure (joinedVal strs)

/-- The descriptions the `best_human_match` loop collects, one protein
fetch per element of `items`, in order. -/
def bestHumanVals (env : FetchEnv) : List Json → Except PyErr (List Json)
  | [] => .ok []
  | pj :: rest => do
      let bhm ←
        match pj with
        | .str id => fetchRes env PROTEIN_BASE id "best_human_match"
        | _ => .error .typeError
      if pyTruthy bhm then
        let b ← pyIn "description" bhm
        if b then do
          let v ← pyIndexStr bhm "description"
          let tail ← bestHumanVals env rest
          pure (v :: tail)
        else bestHumanVals env rest
      else bestHumanVals env rest

/-- The final value of the `best_human_ortholog` field: the collected
descriptions, one lookup per collected protein id, joined with `', '`, or
`None` when none were collected. -/
def bestHumanValueOf (env : FetchEnv) (gid : String) : Except PyErr Json := do
  let ids ← proteinIdsOf env gid
  let descs ← bestHumanVals env ids
  let strs ← asStrings descs
  pure (joinedVal strs)

/-- A successful API response body for endpoint `datum` carrying `v` as its
`data` member, in the documented shape `{datum: {"data": v, ...}}`. -/
def mkResp (datum : String) (v : Json) : FetchOutcome :=
  .ok (Json.obj [(datum, Json.obj [("data", v)])])

/-- The `data` member a benign test network returns for each endpoint:
one gene model with protein id `ABC`, empty ortholog lists. -/
def respFor : String → Json
  | "sequence_name" => .str "abc-1"
  | "concise_description" => .obj [("text", .str "a protein")]
  | "gene_models" =>
      .obj [("table", .arr [.obj [("protein", .obj [("id", .str "ABC")])]])]
  | "gene_class" => .obj [("tag", .obj [("label", .str "gcls")])]
  | "best_human_match" => .obj [("description", .str "human X")]
  | _ => .arr []

/-- A benign network: every request succeeds with `respFor`. -/
def envW : FetchEnv := fun _ _ datum => mkResp datum (respFor datum)

/-- A network on which every request's transport raises. -/
def envT : FetchEnv := fun _ _ _ => .transport

/-- Like `envW`, except the `concise_description` body fails to decode, so
that `fetch` returns `None` for that field. -/
def envC3 : FetchEnv := fun _ _ datum =>
  if datum == "concise_description" then .decodeFail
  else mkResp datum (respFor datum)

/-- Like `envW`, except the `sequence_name` response's `data` member is a
nested mapping rather than a scalar. -/
def envC4 : FetchEnv := fun _ _ datum =>
  if datum == "sequence_name" then mkResp datum (.obj [("x", .str "y")])
  else mkResp datum (respFor datum)

/-- A network on which only `concise_description` decodes (to a `text`
mapping) and every other body fails to decode. -/
def envD : FetchEnv := fun _ _ datum =>
  if datum == "concise_description" then mkResp datum (.obj [("text", .str "d")])
  else .decodeFail

/-- Like `envW`, except `gene_models` lists no gene model at all, so no
protein id is collected. -/
def envGM0 : FetchEnv := fun _ _ datum =>
  if datum == "gene_models" then mkResp datum (.obj [("table", .arr [])])
  else mkResp datum (respFor datum)

/-- A one-row local expression store: `X1 -> {log2(fold_change): 2.5}`. -/
def db1 : CuffDB := [("X1", [("log2(fold_change)", "2.5")])]

/-- The field mapping `populate2` builds on `envW` for gene
`WBGene00001234` with record id `X1` against `db1`. -/
def dW : Data :=
  [("gene_id", .str "WBGene00001234"), ("up/down", .str "2.5"),
   ("sequence_name", .str "abc-1"), ("description", .str "a protein"),
   ("protein_id", .str "ABC"), ("gene_class", .str "gcls"),
   ("human_orthologs", .null), ("nematode_orthologs", .null),
   ("other_orthologs", .null), ("best_human_ortholog", .str "human X")]

/-- The trace `populate2` leaves on `envW` for gene `WBGene00001234`. -/
def tW : Trace :=
  [⟨GENE_BASE, "WBGene00001234", "sequence_name"⟩,
   ⟨GENE_BASE, "WBGene00001234", "concise_description"⟩,
   ⟨GENE_BASE, "WBGene00001234", "gene_models"⟩,
   ⟨GENE_BASE, "WBGene00001234", "gene_class"⟩,
   ⟨GENE_BASE, "WBGene00001234", "human_orthologs"⟩,
   ⟨GENE_BASE, "WBGene00001234", "nematode_orthologs"⟩,
   ⟨GENE_BASE, "WBGene00001234", "other_orthologs"⟩,
   ⟨PROTEIN_BASE, "ABC", "best_human_match"⟩]

/-- The field mapping `populate2` builds on `envD` for gene `WBGene1` with
no record id and an empty store. -/
def dD : Data :=
  [("gene_id", .str "WBGene1"), ("sequence_name", .null),
   ("description", .str "d"), ("protein_id", .null),
   ("human_orthologs", .null), ("nematode_orthologs", .null),
   ("other_orthologs", .null), ("best_human_ortholog", .null)]

/-- The trace `populate2` leaves on `envD` for gene `WBGene1`. -/
def tD : Trace :=
  [⟨GENE_BASE, "WBGene1", "sequence_name"⟩,
   ⟨GENE_BASE, "WBGene1", "concise_description"⟩,
   ⟨GENE_BASE, "WBGene1", "gene_models"⟩,
   ⟨GENE_BASE, "WBGene1", "gene_class"⟩,
   ⟨GENE_BASE, "WBGene1", "human_orthologs"⟩,
   ⟨GENE_BASE, "WBGene1", "nematode_orthologs"⟩,
   ⟨GENE_BASE, "WBGene1", "other_orthologs"⟩]

end WormBait

namespace WormBait

example : populate2 envW (some "X1") (some "abc") db1 =
    .ok ([("gene_id", .str "abc")], []) := rfl

example :
    (populate2 envW (some "X1") (some "WBGene00001234") db1).map
        (fun p => (dget? p.1 "protein_id", dget? p.1 "best_human_ortholog",
          dget? p.1 "human_orthologs", dget? p.1 "up/down",
          (p.2.filter (fun c => c.datum == "best_human_match")).map (·.id))) =
    .ok (some (.str "ABC"), some (.str "human X"), some .null,
      some (.str "2.5"), ["ABC"]) := rfl

example :
    (populate3 envW (some "X1") (some "WBGene00001234") db1).map
        (fun p =>
          (p.2.filter (fun c => c.datum == "best_human_match")).map (·.id)) =
    .ok ["A", "B", "C"] := rfl

example :
    (populate3 envW (some "X1") (some "abc") db1).map (fun p => p.2.length) =
    .ok 10 := rfl

example : populate2 envC3 (some "X1") (some "WBGene00001234") db1 =
    .error .typeError := rfl

example :
    (populate2 envC4 none (some "WBGene00001234") db1).map
      (fun p => dget? p.1 "sequence_name") =
    .ok (some (.obj [("x", .str "y")])) := rfl

example : cuffLinkInit [["a", "b"], ["x"]] = .ok [("x", [("a", "x")])] := rfl

example : outputWrite ["db_id", "gene_id", "up/down"]
    [⟨some "XLOC_001", some "abc", [("gene_id", .str "abc")]⟩] =
    .ok ["gene_id"] := rfl

example : outputWrite ["db_id", "gene_id", "up/down"]
    [⟨some "X", some "g", [("gene_id", .str "g"), ("db_id", .str "XLOC_7")]⟩] =
    .ok ["db_id", "gene_id", "up/down"] := rfl

@[simp] theorem exc_bind_ok {ε α β : Type} (v : α) (f : α → Except ε β) :
    (Except.ok v >>= f) = f v := rfl

@[simp] theorem exc_bind_err {ε α β : Type} (e : ε) (f : α → Except ε β) :
    ((Except.error e : Except ε α) >>= f) = .error e := rfl

@[simp] theorem exc_pure_eq {ε α : Type} (v : α) :
    (pure v : Except ε α) = .ok v := rfl

@[simp] theorem exc_map_ok {ε α β : Type} (f : α → β) (v : α) :
    (Except.ok v : Except ε α).map f = .ok (f v) := rfl

@[simp] theorem exc_map_err {ε α β : Type} (f : α → β) (e : ε) :
    (Except.error e : Except ε α).map f = .error e := rfl

theorem dget_dset_self {α : Type} (d : List (String × α)) (k : String) (v : α) :
    dget? (dset d k v) k = some v := by
  induction d with
  | nil => simp [dget?, dset]
  | cons p rest ih =>
      by_cases h : p.1 == k
      · simp [dset, dget?, h]
      · simp only [dset]
        rw [if_neg (by simpa using h)]
        simp only [dget?]
        rw [if_neg (by simpa using h)]
        exact ih

theorem dget_dset_ne {α : Type} (d : List (String × α)) (k k' : String)
    (v : α) (h : (k == k') = false) :
    dget? (dset d k v) k' = dget? d k' := by
  induction d with
  | nil => simp_all [dget?, dset]
  | cons p rest ih =>
      by_cases hp : p.1 == k
      · have hp' : p.1 = k := by simpa using hp
        simp only [dset, dget?, if_pos hp]
        subst hp'
        rw [if_neg (by simpa using h), if_neg (by simpa using h)]
      · simp only [dset, dget?]
        rw [if_neg (by simpa using hp)]
        simp only [dget?]
        by_cases hk : p.1 == k'
        · rw [if_pos hk, if_pos hk]
        · rw [if_neg hk, if_neg hk]
          exact ih

theorem asStrings_length {xs : List Json} {ss : List String}
    (h : asStrings xs = .ok ss) : ss.length = xs.length := by
  induction xs generalizing ss with
  | nil => simp [asStrings] at h; simp [← h]
  | cons x rest ih =>
      cases x with
      | str s =>
          simp only [asStrings] at h
          cases hr : asStrings rest with
          | error e => rw [hr] at h; simp at h
          | ok tail =>
              rw [hr] at h
              simp at h
              subst h
              simp [ih hr]
      | null => simp [asStrings] at h
      | bool b => simp [asStrings] at h
      | num n => simp [asStrings] at h
      | arr l => simp [asStrings] at h
      | obj l => simp [asStrings] at h

theorem fetchCall_str_ok {env : FetchEnv} {base id datum : String} {t t' : Trace}
    {j : Json} (h : fetchCall env base (.str id) datum t = .ok (j, t')) :
    fetchRes env base id datum = .ok j ∧ t' = t ++ [⟨base, id, datum⟩] := by
  simp only [fetchCall, fetchRes] at h ⊢
  cases hr : fetchRaw datum (env base id datum) with
  | error e => rw [hr] at h; simp at h
  | ok j0 => rw [hr] at h; simp at h; simp [h.1, h.2]

theorem joinIfExtant_arr_inv {d d' : Data} {k : String} {xs : List Json}
    (hk : dget? d k = some (.arr xs)) (h : joinIfExtant d k = .ok d') :
    ∃ ss, asStrings xs = .ok ss ∧ d' = dset d k (joinedVal ss) := by
  simp only [joinIfExtant, hk] at h
  cases xs with
  | nil =>
      refine ⟨[], rfl, ?_⟩
      simp only [pyLen, List.length_nil] at h
      simp only [exc_bind_ok] at h
      simp at h
      simp [← h, joinedVal]
  | cons x rest =>
      simp only [pyLen, List.length_cons] at h
      simp only [exc_bind_ok] at h
      rw [if_neg (by simp)] at h
      simp only [pyIter, exc_bind_ok] at h
      cases ha : asStrings (x :: rest) with
      | error e => rw [ha] at h; simp at h
      | ok ss =>
          rw [ha] at h
          simp at h
          refine ⟨ss, rfl, ?_⟩
          have hlen : ss.length = rest.length + 1 := by
            simpa using asStrings_length ha
          have hne : ss.isEmpty = false := by
            cases ss with
            | nil => simp at hlen
            | cons a b => simp
          rw [← h]
          simp [joinedVal, hne]

theorem beq_false_symm {a b : String} (h : (a == b) = false) :
    (b == a) = false := by
  simp only [beq_eq_false_iff_ne] at h ⊢
  exact fun e => h e.symm

theorem upDownStep_pres {dbId : Option String} {db : CuffDB} {d d' : Data}
    (h : upDownStep dbId db d = .ok d') (k : String)
    (hk : (k == "up/down") = false) : dget? d' k = dget? d k := by
  simp only [upDownStep] at h
  split at h
  · cases hc : cuffGet db (dbId.getD "") with
    | none => rw [hc] at h; simp at h
    | some row =>
        simp only [hc] at h
        cases hv : dget? row "log2(fold_change)" with
        | none => simp only [hv] at h; simp at h
        | some v =>
            simp only [hv] at h
            simp at h
            rw [← h]
            exact dget_dset_ne d "up/down" k (Json.str v) (beq_false_symm hk)
  · simp at h; rw [h]

theorem upDownStep_val {dbId : Option String} {db : CuffDB} {d d' : Data}
    (h : upDownStep dbId db d = .ok d')
    (ht : pyTruthyOptStr dbId = true) :
    ∃ row v, cuffGet db (dbId.getD "") = some row ∧
      dget? row "log2(fold_change)" = some v ∧
      dget? d' "up/down" = some (.str v) := by
  simp only [upDownStep, ht, if_pos] at h
  cases hc : cuffGet db (dbId.getD "") with
  | none => rw [hc] at h; simp at h
  | some row =>
      simp only [hc] at h
      cases hv : dget? row "log2(fold_change)" with
      | none => simp only [hv] at h; simp at h
      | some v =>
          simp only [hv] at h
          simp at h
          exact ⟨row, v, rfl, hv, by rw [← h]; exact dget_dset_self d "up/down" (Json.str v)⟩

theorem sequenceStep_ok {env : FetchEnv} {gid : Json} {d d' : Data}
    {t t' : Trace} (h : sequenceStep env gid d t = .ok (d', t')) :
    ∃ v, d' = dset d "sequence_name" v := by
  simp only [sequenceStep] at h
  cases hf : fetchCall env GENE_BASE gid "sequence_name" t with
  | error e => rw [hf] at h; simp at h
  | ok p =>
      obtain ⟨v, t1⟩ := p
      rw [hf] at h
      simp at h
      exact ⟨v, h.1.symm⟩

theorem descriptionStep_ok {env : FetchEnv} {gid : Json} {d d' : Data}
    {t t' : Trace} (h : descriptionStep env gid d t = .ok (d', t')) :
    ∃ v, d' = dset d "description" v := by
  simp only [descriptionStep] at h
  cases hf : fetchCall env GENE_BASE gid "concise_description" t with
  | error e => rw [hf] at h; simp at h
  | ok p =>
      obtain ⟨resp, t1⟩ := p
      rw [hf] at h
      simp only [exc_bind_ok] at h
      cases hv : pyIndexStr resp "text" with
      | error e => rw [hv] at h; simp at h
      | ok v =>
          rw [hv] at h
          simp at h
          exact ⟨v, h.1.symm⟩

theorem geneClassStep_pres {env : FetchEnv} {gid : Json} {d d' : Data}
    {t t' : Trace} (h : geneClassStep env gid d t = .ok (d', t'))
    (k : String) (hk : (k == "gene_class") = false) :
    dget? d' k = dget? d k := by
  simp only [geneClassStep] at h
  cases hf : fetchCall env GENE_BASE gid "gene_class" t with
  | error e => rw [hf] at h; simp at h
  | ok p =>
      obtain ⟨resp, t1⟩ := p
      rw [hf] at h
      simp only [exc_bind_ok] at h
      split at h
      · cases hb : pyIn "tag" resp with
        | error e => rw [hb] at h; simp at h
        | ok b =>
            rw [hb] at h
            simp only [exc_bind_ok] at h
            split at h
            · cases htg : pyIndexStr resp "tag" with
              | error e => rw [htg] at h; simp at h
              | ok tg =>
                  rw [htg] at h
                  simp only [exc_bind_ok] at h
                  cases hb2 : pyIn "label" tg with
                  | error e => rw [hb2] at h; simp at h
                  | ok b2 =>
                      rw [hb2] at h
                      simp only [exc_bind_ok] at h
                      split at h
                      · cases hv : pyIndexStr tg "label" with
                        | error e => rw [hv] at h; simp at h
                        | ok v =>
                            rw [hv] at h
                            simp at h
                            rw [← h.1]
                            exact dget_dset_ne d "gene_class" k v (beq_false_symm hk)
                      · simp at h; rw [h.1]
            · simp at h; rw [h.1]
      · simp at h; rw [h.1]

theorem dset_dset {α : Type} (d : List (String × α)) (k : String) (v w : α) :
    dset (dset d k v) k w = dset d k w := by
  induction d with
  | nil => simp [dset]
  | cons p rest ih =>
      by_cases hp : p.1 == k
      · simp [dset, hp]
      · simp [dset, hp, ih]

theorem geneModelsStep_char {env : FetchEnv} {gid : String} {d d' : Data}
    {t t' : Trace} (h : geneModelsStep env (.str gid) d t = .ok (d', t')) :
    ∃ ids, proteinIdsOf env gid = .ok ids ∧
      d' = dset d "protein_id" (Json.arr ids) := by
  simp only [geneModelsStep] at h
  cases hf : fetchCall env GENE_BASE (.str gid) "gene_models" t with
  | error e => rw [hf] at h; simp at h
  | ok p =>
      obtain ⟨resp, t1⟩ := p
      obtain ⟨hr, ht1⟩ := fetchCall_str_ok hf
      rw [hf] at h
      simp only [exc_bind_ok] at h
      by_cases htr : pyTruthy resp = true
      · rw [if_pos htr] at h
        cases hb : pyIn "table" resp with
        | error e => rw [hb] at h; simp at h
        | ok b =>
            rw [hb] at h
            simp only [exc_bind_ok] at h
            by_cases hbt : b = true
            · rw [if_pos hbt] at h
              cases htb : pyIndexStr resp "table" with
              | error e => rw [htb] at h; simp at h
              | ok tbl =>
                  rw [htb] at h
                  simp only [exc_bind_ok] at h
                  cases hit : pyIter tbl with
                  | error e => rw [hit] at h; simp at h
                  | ok items =>
                      rw [hit] at h
                      simp only [exc_bind_ok] at h
                      cases hids : collectProteinIds items with
                      | error e => rw [hids] at h; simp at h
                      | ok ids =>
                          rw [hids] at h
                          simp at h
                          refine ⟨ids, ?_, ?_⟩
                          · simp [proteinIdsOf, hr, htr, hb, hbt, htb, hit, hids]
                          · rw [← h.1, dset_dset]
            · rw [if_neg hbt] at h
              simp at h
              refine ⟨[], ?_, h.1.symm⟩
              simp [proteinIdsOf, hr, htr, hb, hbt]
      · rw [if_neg htr] at h
        simp at h
        refine ⟨[], ?_, h.1.symm⟩
        simp [proteinIdsOf, hr, htr]

theorem orthologStep_char {env : FetchEnv} {gid datum : String} {d d' : Data}
    {t t' : Trace} (h : orthologStep env (.str gid) datum d t = .ok (d', t')) :
    ∃ v, orthologValueOf env gid datum = .ok v ∧ d' = dset d datum v := by
  simp only [orthologStep] at h
  cases hf : fetchCall env GENE_BASE (.str gid) datum t with
  | error e => rw [hf] at h; simp at h
  | ok p =>
      obtain ⟨resp, t1⟩ := p
      obtain ⟨hr, ht1⟩ := fetchCall_str_ok hf
      rw [hf] at h
      simp only [exc_bind_ok] at h
      cases hl : collectOrthologLabels resp with
      | error e => rw [hl] at h; simp at h
      | ok labels =>
          rw [hl] at h
          simp only [exc_bind_ok] at h
          have hget : dget? (dset (dset d datum (Json.arr [])) datum
              (Json.arr labels)) datum = some (.arr labels) :=
            dget_dset_self _ datum _
          cases hj : joinIfExtant (dset (dset d datum (Json.arr []))
              datum (Json.arr labels)) datum with
          | error e => rw [hj] at h; simp at h
          | ok d3 =>
              obtain ⟨ss, has, hd3⟩ := joinIfExtant_arr_inv hget hj
              rw [hj] at h
              simp at h
              refine ⟨joinedVal ss, ?_, ?_⟩
              · simp [orthologValueOf, hr, hl, has]
              · rw [← h.1, hd3, dset_dset, dset_dset]

theorem bestHumanLoop_vals {env : FetchEnv} {items : List Json}
    {acc acc' : List Json} {t t' : Trace}
    (h : bestHumanLoop env items acc t = .ok (acc', t')) :
    ∃ vs, bestHumanVals env items = .ok vs ∧ acc' = acc ++ vs := by
  induction items generalizing acc t with
  | nil =>
      simp only [bestHumanLoop] at h
      simp at h
      exact ⟨[], rfl, by simp [h.1]⟩
  | cons pj rest ih =>
      simp only [bestHumanLoop] at h
      cases pj with
      | str id =>
          simp only [bestHumanVals]
          cases hf : fetchCall env PROTEIN_BASE (.str id) "best_human_match" t with
          | error e => rw [hf] at h; simp at h
          | ok p =>
              obtain ⟨bhm, t1⟩ := p
              obtain ⟨hr, ht1⟩ := fetchCall_str_ok hf
              rw [hf] at h
              simp only [exc_bind_ok] at h
              simp only [hr, exc_bind_ok]
              by_cases htr : pyTruthy bhm = true
              · rw [if_pos htr] at h
                rw [if_pos htr]
                cases hb : pyIn "description" bhm with
                | error e => rw [hb] at h; simp at h
                | ok b =>
                    rw [hb] at h
                    simp only [exc_bind_ok] at h ⊢
                    by_cases hbt : b = true
                    · rw [if_pos hbt] at h
                      rw [if_pos hbt]
                      cases hv : pyIndexStr bhm "description" with
                      | error e => rw [hv] at h; simp at h
                      | ok v =>
                          rw [hv] at h
                          simp only [exc_bind_ok] at h ⊢
                          obtain ⟨vs, hvs, hacc⟩ := ih h
                          simp only [hvs, exc_bind_ok]
                          exact ⟨v :: vs, rfl, by simp [hacc]⟩
                    · rw [if_neg hbt] at h
                      rw [if_neg hbt]
                      obtain ⟨vs, hvs, hacc⟩ := ih h
                      exact ⟨vs, hvs, hacc⟩
              · rw [if_neg htr] at h
                rw [if_neg htr]
                obtain ⟨vs, hvs, hacc⟩ := ih h
                exact ⟨vs, hvs, hacc⟩
      | null => simp [fetchCall] at h
      | bool b => simp [fetchCall] at h
      | num n => simp [fetchCall] at h
      | arr l => simp [fetchCall] at h
      | obj l => simp [fetchCall] at h

theorem bestHumanStep_char {env : FetchEnv} {d d' : Data} {t t' : Trace}
    {ids : List Json} (h : bestHumanStep env d t = .ok (d', t'))
    (hpid : dget? d "protein_id" = some (.arr ids)) :
    ∃ descs, bestHumanVals env ids = .ok descs ∧
      d' = dset d "best_human_ortholog" (Json.arr descs) := by
  simp only [bestHumanStep] at h
  have hpid0 : dget? (dset d "best_human_ortholog" (Json.arr []))
      "protein_id" = some (.arr ids) := by
    rw [dget_dset_ne d "best_human_ortholog" "protein_id" _ (by decide)]
    exact hpid
  rw [hpid0] at h
  cases ids with
  | nil =>
      simp only [pyTruthy, List.isEmpty_nil, Bool.not_true, Bool.and_false] at h
      simp at h
      exact ⟨[], rfl, h.1.symm⟩
  | cons x rest =>
      simp only [pyTruthy, List.isEmpty_cons, Bool.not_false, Bool.and_true] at h
      simp only [if_true] at h
      simp only [pyIter, exc_bind_ok] at h
      cases hl : bestHumanLoop env (x :: rest) [] t with
      | error e => rw [hl] at h; simp at h
      | ok p =>
          obtain ⟨acc, t1⟩ := p
          obtain ⟨vs, hvs, hacc⟩ := bestHumanLoop_vals hl
          rw [hl] at h
          simp at h
          refine ⟨vs, hvs, ?_⟩
          rw [← h.1, dset_dset]
          simp at hacc
          rw [hacc]

/-- Master characterization of a successful python2 `populate` run on a
prefixed gene id: each multi-valued field holds exactly the value its
recomputation pipeline produces, and `up/down` holds the store's
`log2(fold_change)` cell whenever a truthy record id was supplied. -/
theorem populate2_ok_char {env : FetchEnv} {dbId : Option String}
    {gid : String} {db : CuffDB} {d : Data} {t : Trace}
    (h : populate2 env dbId (some gid) db = .ok (d, t))
    (hne : (gid == "") = false) (hp : pyStartsWith gid "WBGene" = true) :
    (∃ v, orthologValueOf env gid "human_orthologs" = .ok v ∧
      dget? d "human_orthologs" = some v) ∧
    (∃ v, orthologValueOf env gid "nematode_orthologs" = .ok v ∧
      dget? d "nematode_orthologs" = some v) ∧
    (∃ v, orthologValueOf env gid "other_orthologs" = .ok v ∧
      dget? d "other_orthologs" = some v) ∧
    (∃ v, proteinValueOf env gid = .ok v ∧
      dget? d "protein_id" = some v) ∧
    (∃ v, bestHumanValueOf env gid = .ok v ∧
      dget? d "best_human_ortholog" = some v) ∧
    (pyTruthyOptStr dbId = true →
      ∃ row v, cuffGet db (dbId.getD "") = some row ∧
        dget? row "log2(fold_change)" = some v ∧
        dget? d "up/down" = some (.str v)) := by
  simp only [populate2, Option.getD_some] at h
  rw [if_pos (by simp [pyTruthyOptStr, hp]; simpa using hne)] at h
  cases h1 : upDownStep dbId db [("gene_id", optJson (some gid))] with
  | error e => rw [h1] at h; simp at h
  | ok d1 =>
  rw [h1] at h
  simp only [exc_bind_ok] at h
  cases h2 : sequenceStep env (.str gid) d1 [] with
  | error e => rw [h2] at h; simp at h
  | ok p2 =>
  obtain ⟨d2, t2⟩ := p2
  rw [h2] at h
  simp only [exc_bind_ok] at h
  cases h3 : descriptionStep env (.str gid) d2 t2 with
  | error e => rw [h3] at h; simp at h
  | ok p3 =>
  obtain ⟨d3, t3⟩ := p3
  rw [h3] at h
  simp only [exc_bind_ok] at h
  cases h4 : geneModelsStep env (.str gid) d3 t3 with
  | error e => rw [h4] at h; simp at h
  | ok p4 =>
  obtain ⟨d4, t4⟩ := p4
  rw [h4] at h
  simp only [exc_bind_ok] at h
  cases h5 : geneClassStep env (.str gid) d4 t4 with
  | error e => rw [h5] at h; simp at h
  | ok p5 =>
  obtain ⟨d5, t5⟩ := p5
  rw [h5] at h
  simp only [exc_bind_ok] at h
  cases h6 : orthologStep env (.str gid) "human_orthologs" d5 t5 with
  | error e => rw [h6] at h; simp at h
  | ok p6 =>
  obtain ⟨d6, t6⟩ := p6
  rw [h6] at h
  simp only [exc_bind_ok] at h
  cases h7 : orthologStep env (.str gid) "nematode_orthologs" d6 t6 with
  | error e => rw [h7] at h; simp at h
  | ok p7 =>
  obtain ⟨d7, t7⟩ := p7
  rw [h7] at h
  simp only [exc_bind_ok] at h
  cases h8 : orthologStep env (.str gid) "other_orthologs" d7 t7 with
  | error e => rw [h8] at h; simp at h
  | ok p8 =>
  obtain ⟨d8, t8⟩ := p8
  rw [h8] at h
  simp only [exc_bind_ok] at h
  cases h9 : bestHumanStep env d8 t8 with
  | error e => rw [h9] at h; simp at h
  | ok p9 =>
  obtain ⟨d9, t9⟩ := p9
  rw [h9] at h
  simp only [exc_bind_ok] at h
  cases h10 : joinIfExtant d9 "protein_id" with
  | error e => rw [h10] at h; simp at h
  | ok d10 =>
  rw [h10] at h
  simp only [exc_bind_ok] at h
  cases h11 : joinIfExtant d10 "best_human_ortholog" with
  | error e => rw [h11] at h; simp at h
  | ok d11 =>
  rw [h11] at h
  simp at h
  obtain ⟨hd, ht⟩ := h
  subst hd
  obtain ⟨ids, hpids, hd4⟩ := geneModelsStep_char h4
  obtain ⟨vho, hvho, hd6⟩ := orthologStep_char h6
  obtain ⟨vno, hvno, hd7⟩ := orthologStep_char h7
  obtain ⟨voo, hvoo, hd8⟩ := orthologStep_char h8
  have hpid4 : dget? d4 "protein_id" = some (.arr ids) := by
    rw [hd4]; exact dget_dset_self _ _ _
  have hpid5 : dget? d5 "protein_id" = some (.arr ids) := by
    rw [geneClassStep_pres h5 "protein_id" (by decide)]; exact hpid4
  have hpid8 : dget? d8 "protein_id" = some (.arr ids) := by
    rw [hd8, dget_dset_ne _ _ _ _ (by decide),
      hd7, dget_dset_ne _ _ _ _ (by decide),
      hd6, dget_dset_ne _ _ _ _ (by decide)]
    exact hpid5
  obtain ⟨descs, hdescs, hd9⟩ := bestHumanStep_char h9 hpid8
  have hpid9 : dget? d9 "protein_id" = some (.arr ids) := by
    rw [hd9, dget_dset_ne _ _ _ _ (by decide)]; exact hpid8
  obtain ⟨ssP, hasP, hd10⟩ := joinIfExtant_arr_inv hpid9 h10
  have hbho10 : dget? d10 "best_human_ortholog" = some (.arr descs) := by
    rw [hd10, dget_dset_ne _ _ _ _ (by decide), hd9]
    exact dget_dset_self _ _ _
  obtain ⟨ssB, hasB, hd11⟩ := joinIfExtant_arr_inv hbho10 h11
  refine ⟨⟨vho, hvho, ?_⟩, ⟨vno, hvno, ?_⟩, ⟨voo, hvoo, ?_⟩,
    ⟨joinedVal ssP, ?_, ?_⟩, ⟨joinedVal ssB, ?_, ?_⟩, ?_⟩
  · rw [hd11, dget_dset_ne _ _ _ _ (by decide),
      hd10, dget_dset_ne _ _ _ _ (by decide),
      hd9, dget_dset_ne _ _ _ _ (by decide),
      hd8, dget_dset_ne _ _ _ _ (by decide),
      hd7, dget_dset_ne _ _ _ _ (by decide),
      hd6]
    exact dget_dset_self _ _ _
  · rw [hd11, dget_dset_ne _ _ _ _ (by decide),
      hd10, dget_dset_ne _ _ _ _ (by decide),
      hd9, dget_dset_ne _ _ _ _ (by decide),
      hd8, dget_dset_ne _ _ _ _ (by decide),
      hd7]
    exact dget_dset_self _ _ _
  · rw [hd11, dget_dset_ne _ _ _ _ (by decide),
      hd10, dget_dset_ne _ _ _ _ (by decide),
      hd9, dget_dset_ne _ _ _ _ (by decide),
      hd8]
    exact dget_dset_self _ _ _
  · simp [proteinValueOf, hpids, hasP]
  · rw [hd11, dget_dset_ne _ _ _ _ (by decide), hd10]
    exact dget_dset_self _ _ _
  · simp [bestHumanValueOf, hpids, hdescs, hasB]
  · rw [hd11]
    exact dget_dset_self _ _ _
  · intro htr
    obtain ⟨row, v, hrow, hv, hud1⟩ := upDownStep_val h1 htr
    refine ⟨row, v, hrow, hv, ?_⟩
    obtain ⟨sv, hd2⟩ := sequenceStep_ok h2
    obtain ⟨dv, hd3⟩ := descriptionStep_ok h3
    rw [hd11, dget_dset_ne _ _ _ _ (by decide),
      hd10, dget_dset_ne _ _ _ _ (by decide),
      hd9, dget_dset_ne _ _ _ _ (by decide),
      hd8, dget_dset_ne _ _ _ _ (by decide),
      hd7, dget_dset_ne _ _ _ _ (by decide),
      hd6, dget_dset_ne _ _ _ _ (by decide),
      geneClassStep_pres h5 "up/down" (by decide),
      hd4, dget_dset_ne _ _ _ _ (by decide),
      hd3, dget_dset_ne _ _ _ _ (by decide),
      hd2, dget_dset_ne _ _ _ _ (by decide)]
    exact hud1

theorem populate2_guard_false {env : FetchEnv} {dbId gid? : Option String}
    {db : CuffDB}
    (hc : (pyTruthyOptStr gid? && pyStartsWith (gid?.getD "") "WBGene") = false) :
    populate2 env dbId gid? db = .ok ([("gene_id", optJson gid?)], []) := by
  simp only [populate2]
  rw [if_neg (by simp [hc])]
  rfl

theorem dget_none_iff {α : Type} (kvs : List (String × α)) (k : String) :
    dget? kvs k = none ↔ (kvs.any fun p => p.1 == k) = false := by
  induction kvs with
  | nil => simp [dget?]
  | cons p rest ih =>
      obtain ⟨a, b⟩ := p
      by_cases hp : (a == k) = true
      · simp only [dget?, hp, if_pos rfl, List.any_cons]
        simp [hp]
      · have hp' : (a == k) = false := by simpa using hp
        simp only [dget?, hp', List.any_cons]
        simp only [Bool.false_eq_true, if_false]
        simp [hp', ih]

theorem dget_some_any {α : Type} {kvs : List (String × α)} {k : String}
    {v : α} (h : dget? kvs k = some v) :
    (kvs.any fun p => p.1 == k) = true := by
  induction kvs with
  | nil => simp [dget?] at h
  | cons p rest ih =>
      obtain ⟨a, b⟩ := p
      by_cases hp : (a == k) = true
      · simp [List.any_cons, hp]
      · have hp' : (a == k) = false := by simpa using hp
        simp only [dget?, hp'] at h
        simp only [Bool.false_eq_true, if_false] at h
        simp [List.any_cons, ih h]

theorem orthologValueOf_inv {env : FetchEnv} {gid datum : String} {v : Json}
    (h : orthologValueOf env gid datum = .ok v) :
    ∃ resp labels ss, fetchRes env GENE_BASE gid datum = .ok resp ∧
      collectOrthologLabels resp = .ok labels ∧
      asStrings labels = .ok ss ∧ v = joinedVal ss := by
  simp only [orthologValueOf] at h
  cases hr : fetchRes env GENE_BASE gid datum with
  | error e => rw [hr] at h; simp at h
  | ok resp =>
  rw [hr] at h
  simp only [exc_bind_ok] at h
  cases hl : collectOrthologLabels resp with
  | error e => rw [hl] at h; simp at h
  | ok labels =>
  rw [hl] at h
  simp only [exc_bind_ok] at h
  cases ha : asStrings labels with
  | error e => rw [ha] at h; simp at h
  | ok ss =>
  rw [ha] at h
  simp at h
  exact ⟨resp, labels, ss, rfl, hl, ha, h.symm⟩

theorem proteinValueOf_inv {env : FetchEnv} {gid : String} {v : Json}
    (h : proteinValueOf env gid = .ok v) :
    ∃ ids ss, proteinIdsOf env gid = .ok ids ∧
      asStrings ids = .ok ss ∧ v = joinedVal ss := by
  simp only [proteinValueOf] at h
  cases hi : proteinIdsOf env gid with
  | error e => rw [hi] at h; simp at h
  | ok ids =>
  rw [hi] at h
  simp only [exc_bind_ok] at h
  cases ha : asStrings ids with
  | error e => rw [ha] at h; simp at h
  | ok ss =>
  rw [ha] at h
  simp at h
  exact ⟨ids, ss, rfl, ha, h.symm⟩

theorem bestHumanValueOf_inv {env : FetchEnv} {gid : String} {v : Json}
    (h : bestHumanValueOf env gid = .ok v) :
    ∃ ids descs ss, proteinIdsOf env gid = .ok ids ∧
      bestHumanVals env ids = .ok descs ∧
      asStrings descs = .ok ss ∧ v = joinedVal ss := by
  simp only [bestHumanValueOf] at h
  cases hi : proteinIdsOf env gid with
  | error e => rw [hi] at h; simp at h
  | ok ids =>
  rw [hi] at h
  simp only [exc_bind_ok] at h
  cases hd : bestHumanVals env ids with
  | error e => rw [hd] at h; simp at h
  | ok descs =>
  rw [hd] at h
  simp only [exc_bind_ok] at h
  cases ha : asStrings descs with
  | error e => rw [ha] at h; simp at h
  | ok ss =>
  rw [ha] at h
  simp at h
  exact ⟨ids, descs, ss, rfl, hd, ha, h.symm⟩

/-- A joined value is always `None` or a string. -/
theorem joinedVal_shape (ss : List String) :
    joinedVal ss = Json.null ∨ ∃ s, joinedVal ss = Json.str s := by
  by_cases h : ss.isEmpty
  · left; simp [joinedVal, h]
  · right; exact ⟨String.intercalate ", " ss, by simp [joinedVal, h]⟩

/-- The record a record marks as expression-derived: its field mapping has
a `db_id` entry whose string value starts with `XLOC`. -/
def hasXlocMark (records : List WormData2) : Bool :=
  records.any fun w =>
    match dget? w.data "db_id" with
    | some (.str s) => pyStartsWith s "XLOC"
    | _ => false

theorem exclusiveLoop_false (records : List WormData2) :
    exclusiveLoop records false = .ok false := by
  induction records with
  | nil => rfl
  | cons w rest ih => simp only [exclusiveLoop]; simpa using ih

theorem computeExclusive_eq {records : List WormData2}
    (hstr : ∀ w ∈ records, ∀ v, dget? w.data "db_id" = some v →
      ∃ s, v = .str s) :
    computeExclusive records = .ok (!hasXlocMark records) := by
  simp only [computeExclusive]
  induction records with
  | nil => simp [exclusiveLoop, hasXlocMark]
  | cons w rest ih =>
      have hstrw := fun v hv => hstr w (by simp) v hv
      have hrest : ∀ w2 ∈ rest, ∀ v, dget? w2.data "db_id" = some v →
          ∃ s, v = .str s := fun w2 hw2 v hv => hstr w2 (by simp [hw2]) v hv
      simp only [exclusiveLoop, if_pos rfl]
      by_cases hemp : w.data.isEmpty = true
      · have hnone : dget? w.data "db_id" = none := by
          cases hd : w.data with
          | nil => simp [dget?]
          | cons p r => rw [hd] at hemp; simp at hemp
        simp only [hemp, Bool.not_true, Bool.false_eq_true, if_false]
        rw [ih hrest]
        simp [hasXlocMark, List.any_cons, hnone]
      · have hemp' : w.data.isEmpty = false := by simpa using hemp
        simp only [hemp', Bool.not_false, if_pos rfl]
        simp only [pyIn, exc_bind_ok]
        cases hd : dget? w.data "db_id" with
        | none =>
            have hany : (w.data.any fun p => p.1 == "db_id") = false :=
              (dget_none_iff _ _).1 hd
            simp only [hany, Bool.false_eq_true, if_false]
            rw [ih hrest]
            simp [hasXlocMark, List.any_cons, hd]
        | some v =>
            obtain ⟨str0, rfl⟩ := hstrw v hd
            have hany : (w.data.any fun p => p.1 == "db_id") = true :=
              dget_some_any hd
            simp only [hany, if_pos rfl, hd]
            by_cases hx : pyStartsWith str0 "XLOC" = true
            · simp only [hx, if_pos rfl]
              rw [exclusiveLoop_false]
              simp [hasXlocMark, List.any_cons, hd, hx]
            · have hx' : pyStartsWith str0 "XLOC" = false := by simpa using hx
              simp only [hx', Bool.false_eq_true, if_false]
              rw [ih hrest]
              simp [hasXlocMark, List.any_cons, hd, hx']

theorem writeRowsLoop_ok {hs : List String} {records : List WormData2}
    (hval : ∀ w ∈ records,
      (w.data.all fun p => hs.contains p.1) = true) :
    writeRowsLoop hs records = .ok () := by
  induction records with
  | nil => rfl
  | cons w rest ih =>
      have hw := hval w (by simp)
      have hrest : ∀ w2 ∈ rest,
          (w2.data.all fun p => hs.contains p.1) = true :=
        fun w2 hw2 => hval w2 (by simp [hw2])
      simp only [writeRowsLoop, writeRowCheck, hw, if_pos rfl, exc_bind_ok]
      exact ih hrest

example : populate2 envW (some "X1") (some "WBGene00001234") db1 =
    .ok (dW, tW) := rfl

example : populate2 envD none (some "WBGene1") [] = .ok (dD, tD) := rfl

theorem populate2_dbid_missing {env : FetchEnv} {db : CuffDB}
    {dbid gid : String} (hg : (gid == "") = false)
    (hp : pyStartsWith gid "WBGene" = true) (hd : (dbid == "") = false)
    (hmiss : cuffGet db dbid = none) :
    populate2 env (some dbid) (some gid) db = .error .typeError := by
  simp only [populate2, Option.getD_some]
  rw [if_pos (by simp [pyTruthyOptStr, hp]; simpa using hg)]
  have hud : upDownStep (some dbid) db [("gene_id", optJson (some gid))] =
      .error .typeError := by
    simp only [upDownStep]
    rw [if_pos (by simp [pyTruthyOptStr]; simpa using hd)]
    simp only [Option.getD_some, hmiss]
  rw [hud]
  simp

/-- C1: on a gene identifier lacking the `WBGene` prefix, the python2
`populate` issues no remote request and leaves only `gene_id` in the
mapping; at the very same input, the python3 `populate` (which has no
prefix guard) issues ten remote requests and fills the other fields. -/
theorem c1_prefix_guard_divergence :
    populate2 envW (some "X1") (some "abc") db1 =
      .ok ([("gene_id", .str "abc")], []) ∧
    (populate3 envW (some "X1") (some "abc") db1).map
      (fun p => p.2.length) = .ok 10 ∧
    (populate3 envW (some "X1") (some "abc") db1).map
      (fun p => dget? p.1 "sequence_name") = .ok (some (.str "abc-1")) :=
  ⟨rfl, rfl, rfl⟩

/-- C2 counterexample: when the transport itself fails, `fetch` raises
(the `requests.get` call is outside the `try`), rather than returning
`None` as the claim states. -/
theorem c2_transport_raises :
    fetchCall envT GENE_BASE (.str "WBGene00001234") "sequence_name" [] =
      .error .transportError := rfl

/-- C2 amended: `fetch` returns `None` on a decoding failure; a transport
failure propagates as an exception; on a decoded mapping it returns the
nested `data` member of the requested field when that shape is present,
and `None` when the field is absent or its mapping lacks `data`. -/
theorem c2_fetch_amended (datum : String) (kvs kvs2 : List (String × Json))
    (v : Json) :
    fetchRaw datum .decodeFail = .ok .null ∧
    fetchRaw datum .transport = .error .transportError ∧
    (dget? kvs datum = none → fetchRaw datum (.ok (.obj kvs)) = .ok .null) ∧
    (dget? kvs datum = some (.obj kvs2) → dget? kvs2 "data" = some v →
      fetchRaw datum (.ok (.obj kvs)) = .ok v) ∧
    (dget? kvs datum = some (.obj kvs2) → dget? kvs2 "data" = none →
      fetchRaw datum (.ok (.obj kvs)) = .ok .null) := by
  refine ⟨rfl, rfl, ?_, ?_, ?_⟩
  · intro hn
    have hany : (kvs.any fun p => p.1 == datum) = false :=
      (dget_none_iff _ _).1 hn
    simp [fetchRaw, pyIn, hany]
  · intro hsome hdata
    have hany : (kvs.any fun p => p.1 == datum) = true := dget_some_any hsome
    have hany2 : (kvs2.any fun p => p.1 == "data") = true :=
      dget_some_any hdata
    simp [fetchRaw, pyIn, pyIndexStr, hany, hany2, hsome, hdata]
  · intro hsome hdata
    have hany : (kvs.any fun p => p.1 == datum) = true := dget_some_any hsome
    have hany2 : (kvs2.any fun p => p.1 == "data") = false :=
      (dget_none_iff _ _).1 hdata
    simp [fetchRaw, pyIn, pyIndexStr, hany, hany2, hsome, hdata]

/-- C2 witness: the amended fetch contract evaluated at concrete inputs. -/
theorem c2_fetch_amended_witness :
    fetchRaw "f" (.ok (.obj [("f", .obj [("data", .str "v")])])) =
      .ok (.str "v") ∧
    fetchRaw "g" (.ok (.obj [("f", .obj [("data", .str "v")])])) =
      .ok .null := by
  constructor
  · exact (c2_fetch_amended "f" [("f", .obj [("data", .str "v")])]
      [("data", .str "v")] (.str "v")).2.2.2.1 rfl rfl
  · exact (c2_fetch_amended "g" [("f", .obj [("data", .str "v")])]
      [] .null).2.2.1 rfl

/-- C3: when the `concise_description` lookup yields `None` (here: its
body fails to decode), both variants of `populate` raise `TypeError` at
`description['text']` instead of substituting `absent` and continuing. -/
theorem c3_description_none_crashes :
    populate2 envC3 (some "X1") (some "WBGene00001234") db1 =
      .error .typeError ∧
    populate3 envC3 (some "X1") (some "WBGene00001234") db1 =
      .error .typeError :=
  ⟨rfl, rfl⟩

/-- C4 counterexample: the `sequence_name` response is stored verbatim, so
a mapping-shaped `data` member leaves a nested mapping in the record. -/
theorem c4_nested_sequence_name :
    (populate2 envC4 none (some "WBGene00001234") db1).map
      (fun p => dget? p.1 "sequence_name") =
      .ok (some (.obj [("x", .str "y")])) ∧
    (∀ s, Json.obj [("x", .str "y")] ≠ Json.str s) ∧
    Json.obj [("x", .str "y")] ≠ Json.null :=
  ⟨rfl, fun _ h => Json.noConfusion h, fun h => Json.noConfusion h⟩

/-- C4 amended: the five joined multi-valued fields are always a scalar
string or `None` after a successful enrichment; the remaining fetched
fields (`sequence_name`, `description`, `gene_class`) store whatever value
the response supplied, which need not be scalar. -/
theorem c4_joined_fields_scalar {env : FetchEnv} {dbId gid? : Option String}
    {db : CuffDB} {d : Data} {t : Trace}
    (h : populate2 env dbId gid? db = .ok (d, t)) (k : String)
    (hk : k = "protein_id" ∨ k = "human_orthologs" ∨
      k = "nematode_orthologs" ∨ k = "other_orthologs" ∨
      k = "best_human_ortholog")
    {v : Json} (hv : dget? d k = some v) :
    v = Json.null ∨ ∃ s, v = Json.str s := by
  by_cases hc : (pyTruthyOptStr gid? &&
      pyStartsWith (gid?.getD "") "WBGene") = true
  · cases gid? with
    | none => simp [pyTruthyOptStr] at hc
    | some gid =>
        have hparts : pyTruthyOptStr (some gid) = true ∧
            pyStartsWith ((some gid : Option String).getD "") "WBGene" =
              true := by
          simpa [Bool.and_eq_true] using hc
        have h1 := hparts.1
        have hg : (gid == "") = false := by
          simp only [pyTruthyOptStr, bne] at h1
          cases hq : gid == "" with
          | false => rfl
          | true => rw [hq] at h1; simp at h1
        have hp : pyStartsWith gid "WBGene" = true := by
          simpa using hparts.2
        obtain ⟨hho, hno, hoo, hpi, hbh, _⟩ := populate2_ok_char h hg hp
        rcases hk with rfl | rfl | rfl | rfl | rfl
        · obtain ⟨v', hval', hget'⟩ := hpi
          obtain ⟨ids, ss, _, _, rfl⟩ := proteinValueOf_inv hval'
          rw [hget'] at hv
          cases hv
          exact joinedVal_shape ss
        · obtain ⟨v', hval', hget'⟩ := hho
          obtain ⟨resp, labels, ss, _, _, _, rfl⟩ := orthologValueOf_inv hval'
          rw [hget'] at hv
          cases hv
          exact joinedVal_shape ss
        · obtain ⟨v', hval', hget'⟩ := hno
          obtain ⟨resp, labels, ss, _, _, _, rfl⟩ := orthologValueOf_inv hval'
          rw [hget'] at hv
          cases hv
          exact joinedVal_shape ss
        · obtain ⟨v', hval', hget'⟩ := hoo
          obtain ⟨resp, labels, ss, _, _, _, rfl⟩ := orthologValueOf_inv hval'
          rw [hget'] at hv
          cases hv
          exact joinedVal_shape ss
        · obtain ⟨v', hval', hget'⟩ := hbh
          obtain ⟨ids, descs, ss, _, _, _, rfl⟩ := bestHumanValueOf_inv hval'
          rw [hget'] at hv
          cases hv
          exact joinedVal_shape ss
  · have hc' : (pyTruthyOptStr gid? &&
        pyStartsWith (gid?.getD "") "WBGene") = false := by simpa using hc
    rw [populate2_guard_false hc'] at h
    simp at h
    obtain ⟨hd, -⟩ := h
    subst hd
    rcases hk with rfl | rfl | rfl | rfl | rfl <;> simp [dget?] at hv

/-- C4 witness: the amended statement at a concrete successful run. -/
theorem c4_joined_fields_scalar_witness :
    Json.null = Json.null ∨ ∃ s, Json.null = Json.str s :=
  c4_joined_fields_scalar
    (show populate2 envD none (some "WBGene1") [] = .ok (dD, tD) from rfl)
    "human_orthologs" (by simp) (show dget? dD "human_orthologs" =
      some Json.null from rfl)

/-- C5: with one collected protein id `ABC`, the python2 loop issues
exactly one protein lookup with id `ABC`, while python3 iterates the
joined string and issues one lookup per character; with zero collected
protein ids python2 issues none and python3 raises `TypeError`. -/
theorem c5_protein_iteration_divergence :
    (populate2 envW (some "X1") (some "WBGene00001234") db1).map
      (fun p => (p.2.filter fun c => c.datum == "best_human_match").map
        (fun c => c.id)) = .ok ["ABC"] ∧
    (populate3 envW (some "X1") (some "WBGene00001234") db1).map
      (fun p => (p.2.filter fun c => c.datum == "best_human_match").map
        (fun c => c.id)) = .ok ["A", "B", "C"] ∧
    (populate2 envGM0 (some "X1") (some "WBGene00001234") db1).map
      (fun p => (p.2.filter fun c => c.datum == "best_human_match").map
        (fun c => c.id)) = .ok [] ∧
    populate3 envGM0 (some "X1") (some "WBGene00001234") db1 =
      .error .typeError :=
  ⟨rfl, rfl, rfl, rfl⟩

/-- C6: after a successful python2 enrichment of a prefixed gene id, each
multi-valued field equals the entries its response listed, in order,
joined with `', '`, and equals `None` exactly when no entry was
collected: the three ortholog fields carry the joined ortholog labels,
`protein_id` the joined collected protein ids, and `best_human_ortholog`
the joined descriptions gathered by the per-protein lookups. -/
theorem c6_flattened_fields {env : FetchEnv} {dbId : Option String}
    {gid : String} {db : CuffDB} {d : Data} {t : Trace}
    (h : populate2 env dbId (some gid) db = .ok (d, t))
    (hne : (gid == "") = false) (hp : pyStartsWith gid "WBGene" = true) :
    (∀ datum, datum = "human_orthologs" ∨ datum = "nematode_orthologs" ∨
        datum = "other_orthologs" →
      ∃ resp labels ss, fetchRes env GENE_BASE gid datum = .ok resp ∧
        collectOrthologLabels resp = .ok labels ∧
        asStrings labels = .ok ss ∧
        dget? d datum = some (joinedVal ss)) ∧
    (∃ ids ss, proteinIdsOf env gid = .ok ids ∧ asStrings ids = .ok ss ∧
      dget? d "protein_id" = some (joinedVal ss)) ∧
    (∃ ids descs ss, proteinIdsOf env gid = .ok ids ∧
      bestHumanVals env ids = .ok descs ∧ asStrings descs = .ok ss ∧
      dget? d "best_human_ortholog" = some (joinedVal ss)) := by
  obtain ⟨hho, hno, hoo, hpi, hbh, -⟩ := populate2_ok_char h hne hp
  refine ⟨?_, ?_, ?_⟩
  · intro datum hdatum
    rcases hdatum with rfl | rfl | rfl
    · obtain ⟨v, hval, hget⟩ := hho
      obtain ⟨resp, labels, ss, hr, hl, ha, rfl⟩ := orthologValueOf_inv hval
      exact ⟨resp, labels, ss, hr, hl, ha, hget⟩
    · obtain ⟨v, hval, hget⟩ := hno
      obtain ⟨resp, labels, ss, hr, hl, ha, rfl⟩ := orthologValueOf_inv hval
      exact ⟨resp, labels, ss, hr, hl, ha, hget⟩
    · obtain ⟨v, hval, hget⟩ := hoo
      obtain ⟨resp, labels, ss, hr, hl, ha, rfl⟩ := orthologValueOf_inv hval
      exact ⟨resp, labels, ss, hr, hl, ha, hget⟩
  · obtain ⟨v, hval, hget⟩ := hpi
    obtain ⟨ids, ss, hi, ha, rfl⟩ := proteinValueOf_inv hval
    exact ⟨ids, ss, hi, ha, hget⟩
  · obtain ⟨v, hval, hget⟩ := hbh
    obtain ⟨ids, descs, ss, hi, hd2, ha, rfl⟩ := bestHumanValueOf_inv hval
    exact ⟨ids, descs, ss, hi, hd2, ha, hget⟩

/-- C6 witness: the joined-field contract at a concrete successful run. -/
theorem c6_flattened_fields_witness :
    (∀ datum, datum = "human_orthologs" ∨ datum = "nematode_orthologs" ∨
        datum = "other_orthologs" →
      ∃ resp labels ss,
        fetchRes envW GENE_BASE "WBGene00001234" datum = .ok resp ∧
        collectOrthologLabels resp = .ok labels ∧
        asStrings labels = .ok ss ∧
        dget? dW datum = some (joinedVal ss)) ∧
    (∃ ids ss, proteinIdsOf envW "WBGene00001234" = .ok ids ∧
      asStrings ids = .ok ss ∧
      dget? dW "protein_id" = some (joinedVal ss)) ∧
    (∃ ids descs ss, proteinIdsOf envW "WBGene00001234" = .ok ids ∧
      bestHumanVals envW ids = .ok descs ∧ asStrings descs = .ok ss ∧
      dget? dW "best_human_ortholog" = some (joinedVal ss)) :=
  c6_flattened_fields
    (show populate2 envW (some "X1") (some "WBGene00001234") db1 =
      .ok (dW, tW) from rfl) rfl rfl

/-- C7 counterexample: a record built with the `XLOC_001` record id never
stores a `db_id` field, so the writer still drops the `db_id` and
`up/down` columns even though a record's identifier uses the alternate
prefix. -/
theorem c7_xloc_record_still_dropped :
    wormDataNew2 envW (some "XLOC_001") (some "abc") [] =
      .ok (⟨some "XLOC_001", some "abc", [("gene_id", .str "abc")]⟩, []) ∧
    pyStartsWith "XLOC_001" "XLOC" = true ∧
    outputWrite ["db_id", "gene_id", "up/down"]
      [⟨some "XLOC_001", some "abc", [("gene_id", .str "abc")]⟩] =
      .ok ["gene_id"] :=
  ⟨rfl, rfl, rfl⟩

/-- C7 amended: the python2 writer drops the `db_id` and `up/down` header
columns if and only if no record's field mapping contains a `db_id` entry
whose string value starts with `XLOC` (the record's constructor-supplied
identifier plays no role, and the python3 writer never drops columns). -/
theorem c7_drop_iff_db_id_field (headers : List String)
    (records : List WormData2)
    (hstr : ∀ w ∈ records, ∀ v, dget? w.data "db_id" = some v →
      ∃ s, v = .str s)
    (hdb : headers.contains "db_id" = true)
    (hud : (headers.erase "db_id").contains "up/down" = true)
    (hval : ∀ w ∈ records, (w.data.all fun p =>
      (if hasXlocMark records then headers
       else (headers.erase "db_id").erase "up/down").contains p.1) = true) :
    outputWrite headers records =
      .ok (if hasXlocMark records then headers
           else (headers.erase "db_id").erase "up/down") := by
  have hrem1 : pyRemove headers "db_id" = .ok (headers.erase "db_id") := by
    simp only [pyRemove, hdb]
    rfl
  have hrem2 : pyRemove (headers.erase "db_id") "up/down" =
      .ok ((headers.erase "db_id").erase "up/down") := by
    simp only [pyRemove, hud]
    rfl
  simp only [outputWrite]
  rw [computeExclusive_eq hstr]
  simp only [exc_bind_ok]
  by_cases hx : hasXlocMark records = true
  · simp only [hx, Bool.not_true]
    have hval' : ∀ w ∈ records,
        (w.data.all fun p => headers.contains p.1) = true := by
      intro w hw
      have := hval w hw
      rwa [if_pos hx] at this
    split
    · next hfalse => exact absurd hfalse (by simp)
    · simp only [exc_pure_eq, exc_bind_ok]
      rw [writeRowsLoop_ok hval']
      simp [hx]
  · have hx' : hasXlocMark records = false := by simpa using hx
    simp only [hx', Bool.not_false]
    have hval' : ∀ w ∈ records, (w.data.all fun p =>
        ((headers.erase "db_id").erase "up/down").contains p.1) = true := by
      intro w hw
      have := hval w hw
      rwa [if_neg (by simp [hx'])] at this
    split
    · rw [hrem1]
      simp only [exc_bind_ok]
      rw [hrem2]
      simp only [exc_bind_ok]
      rw [writeRowsLoop_ok hval']
      simp [hx']
    · next hfalse => simp at hfalse

/-- C7 witness: the amended drop rule at concrete inputs, one record with
an `XLOC`-marked `db_id` field (columns kept) and one without (columns
dropped). -/
theorem c7_drop_iff_db_id_field_witness :
    outputWrite ["db_id", "gene_id", "up/down"]
      [⟨some "X", some "g", [("gene_id", .str "g"), ("db_id", .str "XLOC_7")]⟩] =
      .ok ["db_id", "gene_id", "up/down"] ∧
    outputWrite ["db_id", "gene_id", "up/down"]
      [⟨none, some "g", [("gene_id", .str "g")]⟩] = .ok ["gene_id"] := by
  constructor
  · exact c7_drop_iff_db_id_field ["db_id", "gene_id", "up/down"]
      [⟨some "X", some "g", [("gene_id", .str "g"), ("db_id", .str "XLOC_7")]⟩]
      (by intro w hw v hv; simp at hw; subst hw; simp [dget?] at hv;
          exact ⟨"XLOC_7", hv.symm⟩)
      rfl rfl
      (by intro w hw; simp at hw; subst hw; rfl)
  · exact c7_drop_iff_db_id_field ["db_id", "gene_id", "up/down"]
      [⟨none, some "g", [("gene_id", .str "g")]⟩]
      (by intro w hw v hv; simp at hw; subst hw; simp [dget?] at hv)
      rfl rfl
      (by intro w hw; simp at hw; subst hw; rfl)

/-- C8 counterexample: a provided record id absent from the store does not
make enrichment fail when the gene id lacks the `WBGene` prefix — the
python2 `populate` silently skips the whole body, `up/down` included. -/
theorem c8_noprefix_no_failure :
    populate2 envW (some "XLOC_9") (some "abc") [] =
      .ok ([("gene_id", .str "abc")], []) ∧
    cuffGet [] "XLOC_9" = none :=
  ⟨rfl, rfl⟩

/-- C8 amended: for a `WBGene`-prefixed gene id and a truthy record id,
enrichment raises (`TypeError`, the reported run-stopping failure) when
the record id is absent from the store, and sets `up/down` to the row's
`log2(fold_change)` value when it is present and enrichment completes. -/
theorem c8_updown_contract (env : FetchEnv) (db : CuffDB)
    (dbid gid : String) (hg : (gid == "") = false)
    (hp : pyStartsWith gid "WBGene" = true)
    (hd : (dbid == "") = false) :
    (cuffGet db dbid = none →
      populate2 env (some dbid) (some gid) db = .error .typeError) ∧
    (∀ row v d t, cuffGet db dbid = some row →
      dget? row "log2(fold_change)" = some v →
      populate2 env (some dbid) (some gid) db = .ok (d, t) →
      dget? d "up/down" = some (.str v)) := by
  constructor
  · intro hmiss
    exact populate2_dbid_missing hg hp hd hmiss
  · intro row v d t hrow hv h
    have htr : pyTruthyOptStr (some dbid) = true := by
      simp [pyTruthyOptStr, bne]
      intro he
      rw [he] at hd
      simp at hd
    obtain ⟨-, -, -, -, -, hud⟩ := populate2_ok_char h hg hp
    obtain ⟨row', v', hrow', hv', hget⟩ := hud htr
    rw [Option.getD_some] at hrow'
    rw [hrow] at hrow'
    obtain rfl : row = row' := by simpa using hrow'
    rw [hv] at hv'
    obtain rfl : v = v' := by simpa using hv'
    exact hget

/-- C8 witness: the amended contract at concrete inputs — a missing key
raises, a present key flows into `up/down`. -/
theorem c8_updown_contract_witness :
    populate2 envW (some "ZZ") (some "WBGene00001234") [] =
      .error .typeError ∧
    dget? dW "up/down" = some (.str "2.5") := by
  constructor
  · exact (c8_updown_contract envW [] "ZZ" "WBGene00001234"
      rfl rfl rfl).1 rfl
  · exact (c8_updown_contract envW db1 "X1" "WBGene00001234"
      rfl rfl rfl).2 [("log2(fold_change)", "2.5")] "2.5" dW tW rfl rfl rfl

/-- C9 counterexample: a data row shorter than the header row loads
without any error — `zip` silently truncates — rather than failing with a
malformed-input error as the claim states. -/
theorem c9_short_row_accepted :
    cuffLinkInit [["a", "b"], ["x"]] = .ok [("x", [("a", "x")])] := rfl

theorem cuffLoad_hits_empty (headers : List String) :
    ∀ (pre rows : List (List String)) (acc : CuffDB),
      (∀ r ∈ pre, r ≠ []) →
      cuffLoad headers (pre ++ [] :: rows) acc = .error .indexError
  | [], _, _, _ => rfl
  | [] :: _, _, _, hne => absurd rfl (hne [] (by simp))
  | (c :: cs) :: rest, rows, acc, hne => by
      simp only [List.cons_append, cuffLoad]
      exact cuffLoad_hits_empty headers rest rows _
        (fun r hr => hne r (by simp [hr]))

theorem cuffLoad_all_ok (headers : List String) :
    ∀ (rows : List (List String)) (acc : CuffDB),
      (∀ r ∈ rows, r ≠ []) →
      cuffLoad headers rows acc =
        .ok (rows.foldl (fun acc row =>
          match row with
          | [] => acc
          | c :: _ => dset acc c (rowDict headers row)) acc)
  | [], acc, _ => rfl
  | row :: rest, acc, hne => by
      cases row with
      | nil => exact absurd rfl (hne [] (by simp))
      | cons c cs =>
          simp only [cuffLoad, List.foldl_cons]
          exact cuffLoad_all_ok headers rest _
            (fun r hr => hne r (by simp [hr]))

/-- C9 amended: loading fails (with the raised `StopIteration` standing
for `MalformedInputError`) exactly when the source has no header row; the
loader touches no network; rows shorter than the header are accepted,
each row mapped under its first cell to the zip-truncated header-to-cell
dict; an entirely empty data row raises `IndexError`. -/
theorem c9_load_contract :
    cuffLinkInit [] = .error .stopIteration ∧
    (∀ headers rows, (∀ r ∈ rows, r ≠ []) →
      cuffLinkInit (headers :: rows) =
        .ok (rows.foldl (fun acc row =>
          match row with
          | [] => acc
          | c :: _ => dset acc c (rowDict headers row)) [])) ∧
    (∀ headers rows pre, (∀ r ∈ pre, r ≠ []) →
      cuffLinkInit (headers :: (pre ++ [] :: rows)) =
        .error .indexError) := by
  refine ⟨rfl, ?_, ?_⟩
  · intro headers rows hne
    simp only [cuffLinkInit]
    exact cuffLoad_all_ok headers rows [] hne
  · intro headers rows pre hne
    simp only [cuffLinkInit]
    exact cuffLoad_hits_empty headers pre rows [] hne

/-- C9 witness: the amended loading contract at a concrete two-column
source. -/
theorem c9_load_contract_witness :
    cuffLinkInit [["id", "log2(fold_change)"], ["X1", "2.5"]] =
      .ok [("X1", [("id", "X1"), ("log2(fold_change)", "2.5")])] :=
  c9_load_contract.2.1 ["id", "log2(fold_change)"] [["X1", "2.5"]]
    (by intro r hr; simp at hr; subst hr; simp)

/-- C10: when the drop condition holds and the columns are present once,
`write` returns with the caller's header list shortened by the two
removed columns (the list object the constructor stored is the caller's
list, so the caller observes the change), and a second `write` against
the same object no longer finds `db_id` and raises `ValueError`. -/
theorem c10_write_mutates_headers (headers : List String)
    (records : List WormData2)
    (hex : computeExclusive records = .ok true)
    (hdb : headers.contains "db_id" = true)
    (hud : (headers.erase "db_id").contains "up/down" = true)
    (hval : ∀ w ∈ records, (w.data.all fun p =>
      ((headers.erase "db_id").erase "up/down").contains p.1) = true)
    (hnodup : ((headers.erase "db_id").erase "up/down").contains "db_id" =
      false) :
    outputWrite headers records =
      .ok ((headers.erase "db_id").erase "up/down") ∧
    ((headers.erase "db_id").erase "up/down").length + 2 = headers.length ∧
    outputWrite ((headers.erase "db_id").erase "up/down") records =
      .error .valueError := by
  have hrem1 : pyRemove headers "db_id" = .ok (headers.erase "db_id") := by
    simp only [pyRemove, hdb]
    rfl
  have hrem2 : pyRemove (headers.erase "db_id") "up/down" =
      .ok ((headers.erase "db_id").erase "up/down") := by
    simp only [pyRemove, hud]
    rfl
  refine ⟨?_, ?_, ?_⟩
  · simp only [outputWrite, hex, exc_bind_ok]
    split
    · rw [hrem1]
      simp only [exc_bind_ok]
      rw [hrem2]
      simp only [exc_bind_ok]
      rw [writeRowsLoop_ok hval]
      simp
    · next hfalse => simp at hfalse
  · have hm1 : "db_id" ∈ headers := by simpa using hdb
    have hm2 : "up/down" ∈ headers.erase "db_id" := by simpa using hud
    have l0 : 0 < headers.length := List.length_pos_of_mem hm1
    have l1 : (headers.erase "db_id").length = headers.length - 1 :=
      List.length_erase_of_mem hm1
    have l2 : ((headers.erase "db_id").erase "up/down").length =
        (headers.erase "db_id").length - 1 :=
      List.length_erase_of_mem hm2
    have l3 : 0 < (headers.erase "db_id").length :=
      List.length_pos_of_mem hm2
    omega
  · simp only [outputWrite, hex, exc_bind_ok]
    split
    · simp only [pyRemove, hnodup]
      simp
    · next hfalse => simp at hfalse

/-- C10 witness: the in-place header mutation at concrete inputs. -/
theorem c10_write_mutates_headers_witness :
    outputWrite ["db_id", "gene_id", "up/down"]
      [⟨none, some "g", [("gene_id", .str "g")]⟩] = .ok ["gene_id"] ∧
    (1 : Nat) + 2 = 3 ∧
    outputWrite ["gene_id"] [⟨none, some "g", [("gene_id", .str "g")]⟩] =
      .error .valueError := by
  have h := c10_write_mutates_headers ["db_id", "gene_id", "up/down"]
    [⟨none, some "g", [("gene_id", .str "g")]⟩] rfl rfl rfl
    (by intro w hw; simp at hw; subst hw; rfl) rfl
  exact ⟨h.1, h.2.1, h.2.2⟩

end WormBait

